import Mathlib

/-!
A shallow embedding of the metadata-resolution subsystem of the
paper-bookmark server (src/server.ts): URL source classification,
per-provider metadata resolvers (arXiv, CrossRef/DOI, PubMed,
Semantic Scholar, OpenReview, IEEE, ACM), generic HTML meta-tag
scraping, PDF download/parsing, and the orchestrating entry point
`fetchPaperMetadata`.

Strings are modelled as `List Char` internally (`String.data` at the
boundaries).  The JavaScript regular expressions used by the source are
embedded as dedicated left-to-right scanners that reproduce the
relevant matching semantics (leftmost match, greedy/lazy repetition,
alternation order, case-insensitivity flags).  Network and PDF-library
effects are modelled by explicit oracles plus an effect trace.
-/

namespace PaperBookmark

/-! ## Character and whitespace classes -/

/-- JavaScript `\s` restricted to the ASCII whitespace characters that occur
in the data this system handles (space, tab, newline, carriage return,
vertical tab, form feed). -/
def isJsWs (c : Char) : Bool :=
  c = ' ' || c = '\t' || c = '\n' || c = '\r' || c = '\x0b' || c = '\x0c'

/-- ASCII lower-casing of one character, as used by the `/i` regex flag and
`String.prototype.toLowerCase` on ASCII input. -/
def lowerC (c : Char) : Char :=
  if 'A' ≤ c ∧ c ≤ 'Z' then Char.ofNat (c.toNat + 32) else c

/-- Case-insensitive character equality (ASCII). -/
def ciEq (a b : Char) : Bool := lowerC a = lowerC b

def isDigitC (c : Char) : Bool := '0' ≤ c && c ≤ '9'

/-- `[a-f0-9]` under the `/i` flag. -/
def isHexCI (c : Char) : Bool :=
  isDigitC c || ('a' ≤ c && c ≤ 'f') || ('A' ≤ c && c ≤ 'F')

/-- JavaScript regex word characters `\w` (for `\b` boundaries). -/
def isWordC (c : Char) : Bool :=
  isDigitC c || ('a' ≤ c && c ≤ 'z') || ('A' ≤ c && c ≤ 'Z') || c = '_'

/-! ## Basic list-of-char string operations -/

/-- Case-sensitive literal match at the current position; returns the
rest of the input after the literal. -/
def litAt : List Char → List Char → Option (List Char)
  | [], s => some s
  | _ :: _, [] => none
  | p :: ps, c :: cs => if p = c then litAt ps cs else none

/-- Case-insensitive literal match at the current position. -/
def litAtCI : List Char → List Char → Option (List Char)
  | [], s => some s
  | _ :: _, [] => none
  | p :: ps, c :: cs => if ciEq p c then litAtCI ps cs else none

/-- Longest run of characters satisfying `p`, and the rest. -/
def spanP (p : Char → Bool) : List Char → List Char × List Char
  | [] => ([], [])
  | c :: cs =>
    if p c then
      let (run, rest) := spanP p cs
      (c :: run, rest)
    else ([], c :: cs)

/-- `String.prototype.includes`: is `pat` a contiguous substring of `s`? -/
def hasSub (pat : List Char) : List Char → Bool
  | [] => pat.isEmpty
  | c :: cs => ((litAt pat (c :: cs)).isSome) || hasSub pat cs

/-- Split at the first (case-sensitive) occurrence of `pat`: returns the
part before the occurrence and the part after it. -/
def splitFirst (pat : List Char) : List Char → Option (List Char × List Char)
  | [] => if pat.isEmpty then some ([], []) else none
  | c :: cs =>
    match litAt pat (c :: cs) with
    | some rest => some ([], rest)
    | none =>
      match splitFirst pat cs with
      | some (pre, post) => some (c :: pre, post)
      | none => none

/-- JavaScript `String.prototype.trim` (over the `\s` class above). -/
def jsTrim (s : List Char) : List Char :=
  ((s.dropWhile isJsWs).reverse.dropWhile isJsWs).reverse

/-- `replace(/\s+/g, ' ')` with a fuel parameter: every maximal whitespace
run becomes one space. -/
def collapseWsF : Nat → List Char → List Char
  | 0, s => s
  | _ + 1, [] => []
  | fuel + 1, c :: cs =>
    if isJsWs c then
      let (_, rest) := spanP isJsWs cs
      ' ' :: collapseWsF fuel rest
    else c :: collapseWsF fuel cs

def collapseWs (s : List Char) : List Char := collapseWsF (s.length + 1) s

/-- Non-overlapping left-to-right `String.prototype.replace(pat, repl)` with a
global flag, via a fuel parameter (`pat` is always nonempty at call sites). -/
def replaceAllF (pat repl : List Char) : Nat → List Char → List Char
  | 0, s => s
  | _ + 1, [] => []
  | fuel + 1, c :: cs =>
    match litAt pat (c :: cs) with
    | some rest => repl ++ replaceAllF pat repl fuel rest
    | none => c :: replaceAllF pat repl fuel cs

def replaceAll (pat repl s : List Char) : List Char :=
  replaceAllF pat repl (s.length + 1) s

/-- `Array.prototype.join(sep)` over strings. -/
def joinSep (sep : List Char) : List (List Char) → List Char
  | [] => []
  | [x] => x
  | x :: y :: rest => x ++ sep ++ joinSep sep (y :: rest)

/-- `String.prototype.split('\n')`. -/
def splitNl : List Char → List (List Char)
  | [] => [[]]
  | c :: cs =>
    let rest := splitNl cs
    if c = '\n' then [] :: rest
    else
      match rest with
      | [] => [[c]]
      | r :: rs => (c :: r) :: rs

/-! ## Generic regex-style scanners -/

/-- Leftmost-match scan: try the position matcher `m` at every position from
left to right, returning the first success. -/
def scanFirst (m : List Char → Option α) : Nat → List Char → Option α
  | 0, _ => none
  | fuel + 1, s =>
    match m s with
    | some a => some a
    | none =>
      match s with
      | [] => none
      | _ :: t => scanFirst m fuel t

/-- Global-flag scan: like `scanFirst` but after each match continue scanning
from the rest-of-input position the matcher returns. -/
def scanAll (m : List Char → Option (α × List Char)) : Nat → List Char → List α
  | 0, _ => []
  | fuel + 1, s =>
    match m s with
    | some (a, rest) => a :: scanAll m fuel rest
    | none =>
      match s with
      | [] => []
      | _ :: t => scanAll m fuel t

/-- All full matches of the lazy pattern `op[\s\S]*?cl` under a global flag
(case-sensitive), as complete match strings. -/
def betweenAllFull (op cl s : List Char) : List (List Char) :=
  scanAll
    (fun t =>
      match litAt op t with
      | none => none
      | some rest1 =>
        match splitFirst cl rest1 with
        | none => none
        | some (mid, rest2) => some (op ++ mid ++ cl, rest2))
    (s.length + 1) s

/-- The capture of the first match of the lazy pattern `op([\s\S]*?)cl`
(case-sensitive, no global flag). -/
def firstBetween (op cl s : List Char) : Option (List Char) :=
  scanFirst
    (fun t =>
      match litAt op t with
      | none => none
      | some rest1 =>
        match splitFirst cl rest1 with
        | none => none
        | some (mid, _) => some mid)
    (s.length + 1) s

/-- `replace(/<[^>]*>/g, '')`: drop every `<...>` run that has a closing `>`. -/
def stripAngle : Nat → List Char → List Char
  | 0, s => s
  | _ + 1, [] => []
  | fuel + 1, c :: cs =>
    if c = '<' then
      match splitFirst ['>'] cs with
      | some (_, rest) => stripAngle fuel rest
      | none => c :: stripAngle fuel cs
    else c :: stripAngle fuel cs

def stripTags (s : List Char) : List Char := stripAngle (s.length + 1) s

/-- Ordered regex alternation with continuation backtracking: try each
literal alternative (case-insensitively) in order and run the continuation
`cap` on the rest; on capture failure fall through to the next alternative. -/
def altCapCI (cap : List Char → Option α) : List (List Char) → List Char → Option α
  | [], _ => none
  | a :: rest, s =>
    match litAtCI a s with
    | some r =>
      match cap r with
      | some v => some v
      | none => altCapCI cap rest s
    | none => altCapCI cap rest s

/-! ## JavaScript numeric/string helpers -/

def digitsToNat (ds : List Char) : Nat :=
  ds.foldl (fun acc c => acc * 10 + (c.toNat - '0'.toNat)) 0

/-- Leading decimal digit run, as a number (`none` when there is none). -/
def leadDigits (s : List Char) : Option Nat :=
  let (ds, _) := spanP isDigitC s
  if ds.isEmpty then none else some (digitsToNat ds)

/-- JavaScript `parseInt(s, 10)`: skip leading whitespace, optional sign,
then the leading decimal digit run; `none` models `NaN`. -/
def jsParseInt (s : String) : Option Int :=
  match s.data.dropWhile isJsWs with
  | '-' :: r => (fun n => -(n : Int)) <$> leadDigits r
  | '+' :: r => (fun n => (n : Int)) <$> leadDigits r
  | r => (fun n => (n : Int)) <$> leadDigits r

/-- A plain decimal numeral (used to state claims about declared
`content-length` header values). -/
def decNat (s : String) : Option Nat :=
  if s.data ≠ [] ∧ s.data.all isDigitC then some (digitsToNat s.data) else none

/-! ## URL classifier (`detectSource`, server.ts lines 344-357) -/

/-- `String.prototype.includes` on whole strings. -/
def includes (s pat : String) : Bool := hasSub pat.data s.data

def detectSource (url : String) : String :=
  if includes url "arxiv.org" then "arXiv"
  else if includes url "doi.org" then "DOI"
  else if includes url "ieee.org" then "IEEE"
  else if includes url "acm.org" then "ACM"
  else if includes url "springer.com" then "Springer"
  else if includes url "nature.com" then "Nature"
  else if includes url "sciencedirect.com" then "ScienceDirect"
  else if includes url "ncbi.nlm.nih.gov" || includes url "pubmed" then "PubMed"
  else if includes url "semanticscholar.org" then "Semantic Scholar"
  else if includes url "openreview.net" then "OpenReview"
  else if includes url "github.com" then "GitHub"
  else "Web"

/-! ## Provider-specific ID extraction (the URL regexes of server.ts) -/

/-- Capture of `(\d+\.\d+)` (greedy digit runs around a literal dot). -/
def digitsDotDigits (s : List Char) : Option (List Char) :=
  let (d1, r1) := spanP isDigitC s
  if d1.isEmpty then none
  else
    match r1 with
    | '.' :: r2 =>
      let (d2, _) := spanP isDigitC r2
      if d2.isEmpty then none else some (d1 ++ '.' :: d2)
    | _ => none

/-- Position matcher for `/(?:arxiv.org\/(?:abs|pdf)\/|arxiv:)(\d+\.\d+)/i`
(the unescaped dot after `arxiv` matches any non-line-terminator). -/
def arxivIdAt (s : List Char) : Option (List Char) :=
  let alt1 :=
    match litAtCI "arxiv".data s with
    | none => none
    | some [] => none
    | some (c :: r2) =>
      if c = '\n' ∨ c = '\r' then none
      else altCapCI digitsDotDigits ["org/abs/".data, "org/pdf/".data] r2
  match alt1 with
  | some v => some v
  | none =>
    match litAtCI "arxiv:".data s with
    | some r => digitsDotDigits r
    | none => none

def extractArxivId (url : String) : Option String :=
  (scanFirst arxivIdAt (url.data.length + 1) url.data).map String.mk

/-- Capture of `(10\.\d{4,}\/[^\s]+)` (DOI body). -/
def doiCapture (s : List Char) : Option (List Char) :=
  match litAt "10.".data s with
  | none => none
  | some r1 =>
    let (ds, r2) := spanP isDigitC r1
    if ds.length < 4 then none
    else
      match r2 with
      | '/' :: r3 =>
        let (tail, _) := spanP (fun c => !isJsWs c) r3
        if tail.isEmpty then none else some ("10.".data ++ ds ++ '/' :: tail)
      | _ => none

/-- Position matcher for `/(?:doi\.org\/|doi:)(10\.\d{4,}\/[^\s]+)/i`. -/
def doiAt (s : List Char) : Option (List Char) :=
  altCapCI doiCapture ["doi.org/".data, "doi:".data] s

def extractDoi (url : String) : Option String :=
  (scanFirst doiAt (url.data.length + 1) url.data).map String.mk

/-- Position matcher for `/(?:pubmed\.ncbi\.nlm\.nih\.gov\/|pubmed\/)(\d+)/i`. -/
def pmidAt (s : List Char) : Option (List Char) :=
  altCapCI
    (fun r =>
      let (ds, _) := spanP isDigitC r
      if ds.isEmpty then none else some ds)
    ["pubmed.ncbi.nlm.nih.gov/".data, "pubmed/".data] s

def extractPmid (url : String) : Option String :=
  (scanFirst pmidAt (url.data.length + 1) url.data).map String.mk

/-- Position matcher for `/semanticscholar\.org\/paper\/(?:[^/]+\/)?([a-f0-9]+)/i`. -/
def semSchAt (s : List Char) : Option (List Char) :=
  match litAtCI "semanticscholar.org/paper/".data s with
  | none => none
  | some r =>
    let hexCap (t : List Char) : Option (List Char) :=
      let (h, _) := spanP isHexCI t
      if h.isEmpty then none else some h
    let withSeg :=
      let (seg, r2) := spanP (fun c => c ≠ '/') r
      if seg.isEmpty then none
      else
        match r2 with
        | '/' :: r3 => hexCap r3
        | _ => none
    match withSeg with
    | some v => some v
    | none => hexCap r

def extractSemSchId (url : String) : Option String :=
  (scanFirst semSchAt (url.data.length + 1) url.data).map String.mk

/-- Position matcher for `/openreview\.net\/(?:forum|pdf)\?id=([^&]+)/i`. -/
def openReviewIdAt (s : List Char) : Option (List Char) :=
  match litAtCI "openreview.net/".data s with
  | none => none
  | some r =>
    altCapCI
      (fun t =>
        let (cap, _) := spanP (fun c => c ≠ '&') t
        if cap.isEmpty then none else some cap)
      ["forum?id=".data, "pdf?id=".data] r

def extractOpenReviewId (url : String) : Option String :=
  (scanFirst openReviewIdAt (url.data.length + 1) url.data).map String.mk

/-- Position matcher for `/ieee\.org\/document\/(\d+)/i`. -/
def ieeeDocAt (s : List Char) : Option (List Char) :=
  match litAtCI "ieee.org/document/".data s with
  | none => none
  | some r =>
    let (ds, _) := spanP isDigitC r
    if ds.isEmpty then none else some ds

def extractIeeeDocId (url : String) : Option String :=
  (scanFirst ieeeDocAt (url.data.length + 1) url.data).map String.mk

/-- Position matcher for `/dl\.acm\.org\/doi\/(10\.\d{4,}\/[^\s?#]+)/i`. -/
def acmDoiAt (s : List Char) : Option (List Char) :=
  match litAtCI "dl.acm.org/doi/".data s with
  | none => none
  | some r =>
    match litAt "10.".data r with
    | none => none
    | some r1 =>
      let (ds, r2) := spanP isDigitC r1
      if ds.length < 4 then none
      else
        match r2 with
        | '/' :: r3 =>
          let (tail, _) := spanP (fun c => !isJsWs c && c ≠ '?' && c ≠ '#') r3
          if tail.isEmpty then none else some ("10.".data ++ ds ++ '/' :: tail)
        | _ => none

def extractAcmDoi (url : String) : Option String :=
  (scanFirst acmDoiAt (url.data.length + 1) url.data).map String.mk

/-- Position matcher for `/"doi":"(10\.[^"]+)"/` (case-sensitive), used on
IEEE landing-page HTML. -/
def pageDoiAt (s : List Char) : Option (List Char) :=
  match litAt "\"doi\":\"".data s with
  | none => none
  | some r =>
    match litAt "10.".data r with
    | none => none
    | some r2 =>
      let (run, rest) := spanP (fun c => c ≠ '"') r2
      if run.isEmpty then none
      else
        match rest with
        | '"' :: _ => some ("10.".data ++ run)
        | _ => none

def extractPageDoi (html : String) : Option String :=
  (scanFirst pageDoiAt (html.data.length + 1) html.data).map String.mk

/-! ## HTML meta-tag scanners -/

/-- Position matcher for `<meta\s+ATTR="KEY"\s+content="([^"]+)"` (one
attribute/key combination, case-insensitive); yields the capture and the
rest of the input after the full match. -/
def metaAtOne (attr key : List Char) (s : List Char) : Option (List Char × List Char) :=
  match litAtCI "<meta".data s with
  | none => none
  | some r1 =>
    let (ws1, r2) := spanP isJsWs r1
    if ws1.isEmpty then none
    else
      match litAtCI (attr ++ '=' :: '"' :: key ++ ['"']) r2 with
      | none => none
      | some r3 =>
        let (ws2, r4) := spanP isJsWs r3
        if ws2.isEmpty then none
        else
          match litAtCI "content=\"".data r4 with
          | none => none
          | some r5 =>
            let (cap, rest) := spanP (fun c => c ≠ '"') r5
            if cap.isEmpty then none
            else
              match rest with
              | '"' :: r6 => some (cap, r6)
              | _ => none

/-- Ordered alternation over attribute/key combinations at one position. -/
def metaAt : List (List Char × List Char) → List Char → Option (List Char × List Char)
  | [], _ => none
  | (a, k) :: rest, s =>
    match metaAtOne a k s with
    | some v => some v
    | none => metaAt rest s

/-- First meta-tag capture over the whole document. -/
def findMeta (combos : List (String × String)) (html : String) : Option String :=
  (scanFirst (fun s => (metaAt (combos.map fun p => (p.1.data, p.2.data)) s).map (·.1))
      (html.data.length + 1) html.data).map String.mk

/-- All meta-tag captures over the whole document (global flag). -/
def findMetaAll (combos : List (String × String)) (html : String) : List String :=
  (scanAll (metaAt (combos.map fun p => (p.1.data, p.2.data)))
      (html.data.length + 1) html.data).map String.mk

/-- Capture of the first match of `/<title>([^<]+)<\/title>/i`. -/
def findTitleTag (html : String) : Option String :=
  (scanFirst
      (fun s =>
        match litAtCI "<title>".data s with
        | none => none
        | some r =>
          let (run, rest) := spanP (fun c => c ≠ '<') r
          if run.isEmpty then none
          else
            match litAtCI "</title>".data rest with
            | some _ => some run
            | none => none)
      (html.data.length + 1) html.data).map String.mk

/-- `decodeHtmlEntities` (server.ts lines 866-875): six sequential global
replacements followed by a trim. -/
def decodeHtmlEntities (text : String) : String :=
  let s := text.data
  let s := replaceAll "&amp;".data "&".data s
  let s := replaceAll "&lt;".data "<".data s
  let s := replaceAll "&gt;".data ">".data s
  let s := replaceAll "&quot;".data "\"".data s
  let s := replaceAll "&#39;".data "'".data s
  let s := replaceAll "&nbsp;".data " ".data s
  String.mk (jsTrim s)

/-! ## Data model, JSON values, HTTP oracle, effect traces -/

/-- The core output type (src/types/index.ts `PaperMetadata`). -/
structure PaperMetadata where
  url : String
  title : String
  authors : String
  abstract : String
  source : String
deriving Repr, DecidableEq

/-- The all-empty result for a URL and source label. -/
def emptyMeta (url source : String) : PaperMetadata :=
  ⟨url, "", "", "", source⟩

/-- JSON-ish JavaScript values as produced by `response.json()`. -/
inductive JsVal where
  | null
  | str (s : String)
  | arr (elems : List JsVal)
  | obj (fields : List (String × JsVal))

/-- Property access `x.key` (`none` models `undefined`). -/
def getField : JsVal → String → Option JsVal
  | .obj fields, key => (fields.find? (fun p => p.1 = key)).map (·.2)
  | _, _ => none

/-- JavaScript truthiness on the modelled values. -/
def jsTruthy : JsVal → Bool
  | .null => false
  | .str s => s ≠ ""
  | .arr _ => true
  | .obj _ => true

/-- Truthiness of a possibly-`undefined` value. -/
def optTruthy : Option JsVal → Bool
  | none => false
  | some v => jsTruthy v

/-- `typeof x === 'object'` (arrays and `null` are objects in JavaScript). -/
def isObjType : JsVal → Bool
  | .str _ => false
  | _ => true

/-- `typeof x === 'string'`. -/
def isStrType : JsVal → Bool
  | .str _ => true
  | _ => false

def isArr : JsVal → Bool
  | .arr _ => true
  | _ => false

/-- `'key' in x` for plain objects (`false` on arrays, whose elements live
under numeric indices). -/
def hasKey : JsVal → String → Bool
  | .obj fields, key => fields.any (fun p => p.1 = key)
  | _, _ => false

/-- The string content of a value that the TypeScript code casts to
`string`; non-string JSON values are flattened to the empty string. -/
def asStr : JsVal → String
  | .str s => s
  | _ => ""

/-- `x?.[0]` for arrays. -/
def arrHead : JsVal → Option JsVal
  | .arr (v :: _) => some v
  | _ => none

/-- `xs.join(', ')` over the elements of a JSON array value. -/
def joinArr : JsVal → String
  | .arr l => String.mk (joinSep ", ".data (l.map (fun x => (asStr x).data)))
  | _ => ""

/-- `filter(Boolean).join(sep)`: drop empty strings, join the rest. -/
def joinNonEmpty (sep : List Char) (xs : List (List Char)) : List Char :=
  joinSep sep (xs.filter (fun x => !x.isEmpty))

/-- An HTTP response as observed by the resolvers: status flag, the two
headers the code reads, and the body both as raw text and as the result of
`response.json()` (which throws on unparseable bodies). -/
structure HttpResponse where
  ok : Bool
  contentLength : Option String
  contentType : Option String
  bodyText : String
  bodyJson : Except String JsVal

/-- The outbound `fetch` capability: maps a request URL to a response or a
thrown network error. -/
def Oracle := String → Except String HttpResponse

/-- Observable effects of a resolution: outbound fetches, body reads
(`text()` / `json()` / `arrayBuffer()`), and the PDF parser release. -/
inductive Eff where
  | fetch (url : String)
  | readBody (url : String)
  | pdfDestroy
deriving Repr, DecidableEq

/-! ## arXiv resolver (server.ts lines 394-431) -/

/-- One pass of `replace(/<\/?tag>/g, '')`: remove both tag tokens
left-to-right (the optional `/` is tried greedily, so the closing token is
preferred at each position). -/
def removeTagTokensF (openTok closeTok : List Char) : Nat → List Char → List Char
  | 0, s => s
  | _ + 1, [] => []
  | fuel + 1, c :: cs =>
    match litAt closeTok (c :: cs) with
    | some rest => removeTagTokensF openTok closeTok fuel rest
    | none =>
      match litAt openTok (c :: cs) with
      | some rest => removeTagTokensF openTok closeTok fuel rest
      | none => c :: removeTagTokensF openTok closeTok fuel cs

def removeTagTokens (tag : String) (s : List Char) : List Char :=
  removeTagTokensF ("<" ++ tag ++ ">").data ("</" ++ tag ++ ">").data (s.length + 1) s

def fetchArxivMetadata (url : String) (w : Oracle) :
    Except String PaperMetadata × List Eff :=
  match extractArxivId url with
  | none => (.ok (emptyMeta url "arXiv"), [])
  | some arxivId =>
    let apiUrl := "http://export.arxiv.org/api/query?id_list=" ++ arxivId
    match w apiUrl with
    | .error e => (.error e, [.fetch apiUrl])
    | .ok resp =>
      let xmlText := resp.bodyText.data
      let titleMatches := betweenAllFull "<title>".data "</title>".data xmlText
      let title :=
        match titleMatches[1]? with
        | some m => String.mk (collapseWs (jsTrim (removeTagTokens "title" m)))
        | none => ""
      let authorMatches := betweenAllFull "<name>".data "</name>".data xmlText
      let authors :=
        if authorMatches.isEmpty then ""
        else
          String.mk (joinSep ", ".data
            (authorMatches.map (fun a => jsTrim (removeTagTokens "name" a))))
      let abstract :=
        match firstBetween "<summary>".data "</summary>".data xmlText with
        | some m => if m.isEmpty then "" else String.mk (collapseWs (jsTrim m))
        | none => ""
      (.ok ⟨url, title, authors, abstract, "arXiv"⟩, [.fetch apiUrl, .readBody apiUrl])

/-! ## DOI resolver via CrossRef (server.ts lines 434-480) -/

def isUnreservedURI (c : Char) : Bool :=
  isDigitC c || ('a' ≤ c && c ≤ 'z') || ('A' ≤ c && c ≤ 'Z') ||
    c = '-' || c = '_' || c = '.' || c = '!' || c = '~' || c = '*' ||
    c = '\'' || c = '(' || c = ')'

def hexDigitU (n : Nat) : Char :=
  if n < 10 then Char.ofNat ('0'.toNat + n) else Char.ofNat ('A'.toNat + n - 10)

/-- `encodeURIComponent` on ASCII input. -/
def encodeURIComponent (s : String) : String :=
  String.mk (s.data.foldr
    (fun c acc =>
      if isUnreservedURI c then c :: acc
      else '%' :: hexDigitU (c.toNat / 16) :: hexDigitU (c.toNat % 16) :: acc)
    [])

/-- One CrossRef author: `[a.given, a.family].filter(Boolean).join(' ')`. -/
def crossrefAuthorLine (a : JsVal) : List Char :=
  joinNonEmpty [' ']
    [(((getField a "given").map asStr).getD "").data,
     (((getField a "family").map asStr).getD "").data]

def fetchDoiMetadata (url : String) (w : Oracle) :
    Except String PaperMetadata × List Eff :=
  match extractDoi url with
  | none => (.ok (emptyMeta url "DOI"), [])
  | some doi =>
    let apiUrl := "https://api.crossref.org/works/" ++ encodeURIComponent doi
    match w apiUrl with
    | .error e => (.error e, [.fetch apiUrl])
    | .ok resp =>
      if !resp.ok then (.ok (emptyMeta url "DOI"), [.fetch apiUrl])
      else
        match resp.bodyJson with
        | .error e => (.error e, [.fetch apiUrl, .readBody apiUrl])
        | .ok data =>
          match getField data "message" with
          | none => (.ok (emptyMeta url "DOI"), [.fetch apiUrl, .readBody apiUrl])
          | some work =>
            if !jsTruthy work then
              (.ok (emptyMeta url "DOI"), [.fetch apiUrl, .readBody apiUrl])
            else
              let title :=
                match (getField work "title").bind arrHead with
                | some v => asStr v
                | none => ""
              let authors :=
                match getField work "author" with
                | some (.arr l) =>
                  String.mk (joinSep ", ".data (l.map crossrefAuthorLine))
                | _ => ""
              let abstract :=
                match getField work "abstract" with
                | some (.str s) =>
                  if s = "" then "" else String.mk (jsTrim (stripTags s.data))
                | _ => ""
              (.ok ⟨url, title, authors, abstract, "DOI"⟩,
                [.fetch apiUrl, .readBody apiUrl])

/-! ## PubMed resolver (server.ts lines 483-525) -/

/-- Capture of `/<AbstractText[^>]*>([\s\S]*?)<\/AbstractText>/`. -/
def abstractTextCapture (xml : List Char) : Option (List Char) :=
  scanFirst
    (fun s =>
      match litAt "<AbstractText".data s with
      | none => none
      | some r1 =>
        let (_, r2) := spanP (fun c => c ≠ '>') r1
        match r2 with
        | '>' :: r3 =>
          match splitFirst "</AbstractText>".data r3 with
          | some (mid, _) => some mid
          | none => none
        | _ => none)
    (xml.length + 1) xml

/-- One `<Author...</Author>` block: `<ForeName>`+`<LastName>`,
non-empty parts joined with a space. -/
def pubmedAuthorLine (block : List Char) : List Char :=
  let lastName := (firstBetween "<LastName>".data "</LastName>".data block).getD []
  let foreName := (firstBetween "<ForeName>".data "</ForeName>".data block).getD []
  joinNonEmpty [' '] [foreName, lastName]

def fetchPubMedMetadata (url : String) (w : Oracle) :
    Except String PaperMetadata × List Eff :=
  match extractPmid url with
  | none => (.ok (emptyMeta url "PubMed"), [])
  | some pmid =>
    let apiUrl :=
      "https://eutils.ncbi.nlm.nih.gov/entrez/eutils/efetch.fcgi?db=pubmed&id=" ++
        pmid ++ "&retmode=xml"
    match w apiUrl with
    | .error e => (.error e, [.fetch apiUrl])
    | .ok resp =>
      let xml := resp.bodyText.data
      let title :=
        match firstBetween "<ArticleTitle>".data "</ArticleTitle>".data xml with
        | some m => if m.isEmpty then "" else String.mk (jsTrim (stripTags m))
        | none => ""
      let authorBlocks := betweenAllFull "<Author".data "</Author>".data xml
      let authors :=
        if authorBlocks.isEmpty then ""
        else String.mk (joinSep ", ".data (authorBlocks.map pubmedAuthorLine))
      let abstract :=
        match abstractTextCapture xml with
        | some m => if m.isEmpty then "" else String.mk (jsTrim (stripTags m))
        | none => ""
      (.ok ⟨url, title, authors, abstract, "PubMed"⟩, [.fetch apiUrl, .readBody apiUrl])

/-! ## Semantic Scholar resolver (server.ts lines 528-564) -/

def fetchSemanticScholarMetadata (url : String) (w : Oracle) :
    Except String PaperMetadata × List Eff :=
  match extractSemSchId url with
  | none => (.ok (emptyMeta url "Semantic Scholar"), [])
  | some pid =>
    let apiUrl := "https://api.semanticscholar.org/graph/v1/paper/" ++ pid ++
      "?fields=title,authors,abstract"
    match w apiUrl with
    | .error e => (.error e, [.fetch apiUrl])
    | .ok resp =>
      if !resp.ok then (.ok (emptyMeta url "Semantic Scholar"), [.fetch apiUrl])
      else
        match resp.bodyJson with
        | .error e => (.error e, [.fetch apiUrl, .readBody apiUrl])
        | .ok data =>
          let title :=
            match getField data "title" with
            | some .null => ""
            | some v => asStr v
            | none => ""
          let authors :=
            match getField data "authors" with
            | some (.arr l) =>
              String.mk (joinNonEmpty ", ".data
                (l.map (fun a => ((((getField a "name").map asStr).getD "").data))))
            | _ => ""
          let abstract :=
            match getField data "abstract" with
            | some .null => ""
            | some v => asStr v
            | none => ""
          (.ok ⟨url, title, authors, abstract, "Semantic Scholar"⟩,
            [.fetch apiUrl, .readBody apiUrl])

/-! ## OpenReview resolver (server.ts lines 567-631) -/

/-- Normalisation of `content.title` / `content.abstract`:
`typeof x === 'object' && x?.value ? x.value : typeof x === 'string' ? x : ''`. -/
def orScalarField (content : JsVal) (key : String) : String :=
  match getField content key with
  | none => ""
  | some v =>
    if isObjType v && optTruthy (getField v "value") then
      asStr ((getField v "value").getD .null)
    else if isStrType v then asStr v
    else ""

/-- Normalisation of `content.authors`: tolerate a bare array or a
`{value: [...]}` wrapper; anything else yields the empty string. -/
def orAuthorsField (content : JsVal) : String :=
  match getField content "authors" with
  | none => ""
  | some v =>
    if !jsTruthy v then ""
    else if isObjType v && hasKey v "value" &&
        ((getField v "value").map isArr).getD false then
      joinArr ((getField v "value").getD .null)
    else if isArr v then joinArr v
    else ""

def fetchOpenReviewMetadata (url : String) (w : Oracle) :
    Except String PaperMetadata × List Eff :=
  match extractOpenReviewId url with
  | none => (.ok (emptyMeta url "OpenReview"), [])
  | some fid =>
    let apiUrl := "https://api.openreview.net/notes?id=" ++ fid
    match w apiUrl with
    | .error e => (.error e, [.fetch apiUrl])
    | .ok resp =>
      if !resp.ok then (.ok (emptyMeta url "OpenReview"), [.fetch apiUrl])
      else
        match resp.bodyJson with
        | .error e => (.error e, [.fetch apiUrl, .readBody apiUrl])
        | .ok data =>
          match (getField data "notes").bind arrHead with
          | none => (.ok (emptyMeta url "OpenReview"), [.fetch apiUrl, .readBody apiUrl])
          | some note =>
            if !jsTruthy note then
              (.ok (emptyMeta url "OpenReview"), [.fetch apiUrl, .readBody apiUrl])
            else
              let content :=
                match getField note "content" with
                | some .null => JsVal.obj []
                | some c => c
                | none => JsVal.obj []
              (.ok ⟨url, orScalarField content "title", orAuthorsField content,
                  orScalarField content "abstract", "OpenReview"⟩,
                [.fetch apiUrl, .readBody apiUrl])

/-! ## IEEE and ACM resolvers (server.ts lines 634-702) -/

/-- Meta-tag combination list for
`(?:name|property)="(?:citation_title|og:title)"` in regex alternation order. -/
def titleMetaCombos : List (String × String) :=
  [("name", "citation_title"), ("name", "og:title"),
   ("property", "citation_title"), ("property", "og:title")]

/-- Meta-tag combination list for
`(?:name|property)="(?:description|og:description)"`. -/
def descMetaCombos : List (String × String) :=
  [("name", "description"), ("name", "og:description"),
   ("property", "description"), ("property", "og:description")]

/-- The shared landing-page scrape of IEEE/ACM: title and abstract from
title/description meta tags, authors from all `citation_author` tags,
empty entries filtered, joined with `", "`. -/
def scrapeLandingPage (html : String) : String × String × String :=
  let title := (findMeta titleMetaCombos html).getD ""
  let authorCaps := findMetaAll [("name", "citation_author")] html
  let authors :=
    if authorCaps.isEmpty then ""
    else String.mk (joinNonEmpty ", ".data (authorCaps.map String.data))
  let abstract := (findMeta descMetaCombos html).getD ""
  (title, authors, abstract)

def fetchIEEEMetadata (url : String) (w : Oracle) :
    Except String PaperMetadata × List Eff :=
  match extractIeeeDocId url with
  | none => (.ok (emptyMeta url "IEEE"), [])
  | some _ =>
    match w url with
    | .error _ => (.ok (emptyMeta url "IEEE"), [.fetch url])
    | .ok resp =>
      let html := resp.bodyText
      match extractPageDoi html with
      | some pageDoi =>
        let (r, t) := fetchDoiMetadata ("https://doi.org/" ++ pageDoi) w
        match r with
        | .ok m => (.ok { m with source := "IEEE" }, .fetch url :: .readBody url :: t)
        | .error _ =>
          (.ok (emptyMeta url "IEEE"), .fetch url :: .readBody url :: t)
      | none =>
        let (title, authors, abstract) := scrapeLandingPage html
        (.ok ⟨url, title, authors, abstract, "IEEE"⟩, [.fetch url, .readBody url])

def fetchACMMetadata (url : String) (w : Oracle) :
    Except String PaperMetadata × List Eff :=
  match extractAcmDoi url with
  | some doi =>
    let (r, t) := fetchDoiMetadata ("https://doi.org/" ++ doi) w
    (r.map (fun m => { m with source := "ACM" }), t)
  | none =>
    match w url with
    | .error _ => (.ok (emptyMeta url "ACM"), [.fetch url])
    | .ok resp =>
      let (title, authors, abstract) := scrapeLandingPage resp.bodyText
      (.ok ⟨url, title, authors, abstract, "ACM"⟩, [.fetch url, .readBody url])

/-! ## PDF extractor (server.ts lines 704-801) -/

/-- Maximum PDF size to download (50MB). -/
def MAX_PDF_SIZE : Nat := 50 * 1024 * 1024

/-- The document-info dictionary fields the code reads
(`info.Title as string ?? ''`, `info.Author as string ?? ''`). -/
structure PdfInfo where
  title : Option String
  author : Option String

/-- The PDF-parsing capability: constructing the parser over a buffer,
`getInfo()`, and `getText({first: 3})`, each of which may throw. -/
structure PdfOracle where
  ctor : String → Except String Unit
  getInfo : String → Except String PdfInfo
  getTextFirst3 : String → Except String (List String)

/-- `/^(page|vol|volume|issue|doi|arxiv|\d+)[\s.:]/i`: running-header test
for a candidate title line. -/
def isHeaderLike (t : List Char) : Bool :=
  let classC (c : Char) : Bool := isJsWs c || c = '.' || c = ':'
  let cap : List Char → Option Unit := fun r =>
    match r with
    | c :: _ => if classC c then some () else none
    | [] => none
  match altCapCI cap
      ["page".data, "vol".data, "volume".data, "issue".data,
       "doi".data, "arxiv".data] t with
  | some _ => true
  | none =>
    let (ds, r) := spanP isDigitC t
    if ds.isEmpty then false
    else
      match r with
      | c :: _ => classC c
      | [] => false

/-- `/^\d+$/`. -/
def isAllDigits (t : List Char) : Bool := !t.isEmpty && t.all isDigitC

/-- `/^https?:\/\//` (case-sensitive). -/
def isUrlLike (t : List Char) : Bool :=
  (litAt "https://".data t).isSome || (litAt "http://".data t).isSome

/-- The title fallback: first of the first ten non-blank lines whose trimmed
text is 11..299 characters long and is not a header, bare number, or URL. -/
def pdfTitleScan : List (List Char) → List Char
  | [] => []
  | l :: rest =>
    let trimmed := jsTrim l
    if decide (10 < trimmed.length) && decide (trimmed.length < 300) &&
        !isHeaderLike trimmed && !isAllDigits trimmed && !isUrlLike trimmed then
      trimmed
    else pdfTitleScan rest

def pdfTitleFromLines (fullText : List Char) : List Char :=
  let lines := (splitNl fullText).filter (fun l => !(jsTrim l).isEmpty)
  pdfTitleScan (lines.take 10)

/-- `\b` before the current position: start of input or a non-word
character. -/
def wordBoundaryOk (prev : Option Char) : Bool :=
  match prev with
  | none => true
  | some c => !isWordC c

/-- Trailing `\b` after a word: end of input or a non-word character. -/
def trailingBoundary : List Char → Bool
  | [] => true
  | c :: _ => !isWordC c

/-- `1\s*\.?\s*introduction\b` at the current position (the optional dot is
greedy, with backtracking). -/
def oneIntroAt (s : List Char) : Bool :=
  match s with
  | '1' :: r1 =>
    let (_, r2) := spanP isJsWs r1
    let tryTail (t : List Char) : Bool :=
      let (_, t2) := spanP isJsWs t
      (litAtCI "introduction".data t2).elim false trailingBoundary
    (match r2 with
     | '.' :: r3 => tryTail r3 || tryTail r2
     | _ => tryTail r2)
  | _ => false

/-- `\b(?:introduction|keywords|1\s*\.?\s*introduction)\b` at the current
position, given the previous character. -/
def introKeywordAt (prev : Option Char) (s : List Char) : Bool :=
  wordBoundaryOk prev &&
    (((litAtCI "introduction".data s).elim false trailingBoundary) ||
     ((litAtCI "keywords".data s).elim false trailingBoundary) ||
     oneIntroAt s)

/-- The lookahead `(?=\n\s*\n|\b(?:introduction|keywords|1\s*\.?\s*introduction)\b)`. -/
def abstractStop (prev : Option Char) (s : List Char) : Bool :=
  (match s with
   | '\n' :: rest => ((spanP isJsWs rest).1).contains '\n'
   | _ => false) || introKeywordAt prev s

/-- The lazy bounded body `([\s\S]{50,1500}?)` followed by the lookahead:
grow from 50 characters until the lookahead holds, up to 1500. -/
def bodyLazyF : Nat → Nat → List Char → List Char → Option (List Char)
  | 0, _, _, _ => none
  | fuel + 1, count, accRev, rest =>
    if 50 ≤ count && abstractStop accRev.head? rest then some accRev.reverse
    else if 1500 ≤ count then none
    else
      match rest with
      | [] => none
      | c :: cs => bodyLazyF fuel (count + 1) (c :: accRev) cs

def bodyLazy (bs : List Char) : Option (List Char) :=
  bodyLazyF (bs.length + 1) 0 [] bs

/-- `\n?` (greedy, with backtracking) followed by the lazy body. -/
def tryNl (rest : List Char) : Option (List Char) :=
  match rest with
  | '\n' :: r3 =>
    match bodyLazy r3 with
    | some v => some v
    | none => bodyLazy rest
  | _ => bodyLazy rest

/-- `[:\s]*` (greedy, giving characters back one at a time on failure)
followed by `\n?` and the body. -/
def colonWsBack : List Char → List Char → Option (List Char)
  | runRev, rest =>
    match tryNl rest with
    | some v => some v
    | none =>
      match runRev with
      | [] => none
      | c :: rr => colonWsBack rr (c :: rest)

/-- Position matcher for the whole abstract regex
`/\babstract\b[:\s]*\n?([\s\S]{50,1500}?)(?=...)/i`. -/
def abstractMatchAt (prev : Option Char) (s : List Char) : Option (List Char) :=
  if !wordBoundaryOk prev then none
  else
    match litAtCI "abstract".data s with
    | none => none
    | some r1 =>
      if !trailingBoundary r1 then none
      else
        let (run, r2) := spanP (fun c => c = ':' || isJsWs c) r1
        colonWsBack run.reverse r2

/-- Leftmost-match scan of the abstract regex, tracking the previous
character for the word boundaries. -/
def scanAbstract : Nat → Option Char → List Char → Option (List Char)
  | 0, _, _ => none
  | fuel + 1, prev, s =>
    match abstractMatchAt prev s with
    | some v => some v
    | none =>
      match s with
      | [] => none
      | c :: t => scanAbstract fuel (some c) t

/-- The captured abstract body with whitespace collapsed and trimmed
(`''` when the regex does not match). -/
def extractPdfAbstract (fullText : List Char) : List Char :=
  match scanAbstract (fullText.length + 1) none fullText with
  | some body => jsTrim (collapseWs body)
  | none => []

/-- `parsePdfBuffer` (server.ts lines 736-801): try/catch/finally with the
parser released via `destroy()` whenever construction succeeded. -/
def parsePdfBuffer (buffer url source : String) (po : PdfOracle) :
    PaperMetadata × List Eff :=
  match po.ctor buffer with
  | .error _ => (emptyMeta url source, [])
  | .ok _ =>
    match po.getInfo buffer with
    | .error _ => (emptyMeta url source, [.pdfDestroy])
    | .ok info =>
      match po.getTextFirst3 buffer with
      | .error _ => (emptyMeta url source, [.pdfDestroy])
      | .ok pages =>
        let title0 := info.title.getD ""
        let authors := info.author.getD ""
        let fullText := joinSep "\n".data (pages.map String.data)
        let title :=
          if title0 = "" && !fullText.isEmpty then
            String.mk (pdfTitleFromLines fullText)
          else title0
        let abstract :=
          if !fullText.isEmpty then String.mk (extractPdfAbstract fullText) else ""
        (⟨url, String.mk (jsTrim title.data), String.mk (jsTrim authors.data),
            abstract, source⟩,
          [.pdfDestroy])

/-- `fetchPdfMetadata` (server.ts lines 708-733): bounded download with the
content-length check before reading the body. -/
def fetchPdfMetadata (url source : String) (w : Oracle) (po : PdfOracle) :
    PaperMetadata × List Eff :=
  match w url with
  | .error _ => (emptyMeta url source, [.fetch url])
  | .ok resp =>
    if !resp.ok then (emptyMeta url source, [.fetch url])
    else
      let sizeExceeded :=
        match resp.contentLength with
        | some cl =>
          cl ≠ "" &&
            (match jsParseInt cl with
             | some n => (MAX_PDF_SIZE : Int) < n
             | none => false)
        | none => false
      if sizeExceeded then (emptyMeta url source, [.fetch url])
      else
        let (m, t) := parsePdfBuffer resp.bodyText url source po
        (m, [.fetch url, .readBody url] ++ t)

/-! ## Generic HTML resolver (server.ts lines 804-863) -/

/-- The generic title fallback chain (server.ts lines 829-835):
`citation_title` meta, else `og:title` meta, else the trimmed `<title>`
element text, else the empty string (each tier is taken when the previous
value is falsy). -/
def genTitle (html : String) : String :=
  let title0 := (findMeta [("name", "citation_title")] html).getD ""
  let title1 :=
    if title0 = "" then (findMeta [("property", "og:title")] html).getD ""
    else title0
  if title1 = "" then
    match findTitleTag html with
    | some t => String.mk (jsTrim t.data)
    | none => ""
  else title1

/-- The generic authors fallback chain (server.ts lines 837-843): all
`citation_author` meta captures joined with ", " when any exist, else the
single `author` meta, else the empty string. -/
def genAuthors (html : String) : String :=
  let authorCaps := findMetaAll [("name", "citation_author")] html
  if authorCaps.isEmpty then
    (findMeta [("name", "author")] html).getD ""
  else String.mk (joinNonEmpty ", ".data (authorCaps.map String.data))

/-- The generic abstract fallback chain (server.ts lines 845-851):
`citation_abstract` meta, else `description` meta, else `og:description`
meta, else the empty string. -/
def genAbstract (html : String) : String :=
  let abstract0 := (findMeta [("name", "citation_abstract")] html).getD ""
  let abstract1 :=
    if abstract0 = "" then (findMeta [("name", "description")] html).getD ""
    else abstract0
  if abstract1 = "" then
    (findMeta [("property", "og:description")] html).getD ""
  else abstract1

def fetchGenericMetadata (url source : String) (w : Oracle) (po : PdfOracle) :
    Except String PaperMetadata × List Eff :=
  let isPdf := ".pdf".data.isSuffixOf (url.data.map lowerC) || includes url "/pdf/"
  if isPdf then
    let (m, t) := fetchPdfMetadata url source w po
    (.ok m, t)
  else
    match w url with
    | .error _ => (.ok (emptyMeta url source), [.fetch url])
    | .ok resp =>
      let contentType := resp.contentType.getD ""
      if includes contentType "application/pdf" then
        let (m, t) := parsePdfBuffer resp.bodyText url source po
        (.ok m, .fetch url :: .readBody url :: t)
      else
        let html := resp.bodyText
        (.ok ⟨url, decodeHtmlEntities (genTitle html),
            decodeHtmlEntities (genAuthors html),
            decodeHtmlEntities (genAbstract html), source⟩,
          [.fetch url, .readBody url])

/-! ## Orchestrator (`fetchPaperMetadata`, server.ts lines 359-392) -/

/-- The `switch (source)` dispatch inside the orchestrator's try block. -/
def resolveDispatch (url : String) (w : Oracle) (po : PdfOracle) :
    Except String PaperMetadata × List Eff :=
  match detectSource url with
  | "arXiv" => fetchArxivMetadata url w
  | "DOI" => fetchDoiMetadata url w
  | "PubMed" => fetchPubMedMetadata url w
  | "Semantic Scholar" => fetchSemanticScholarMetadata url w
  | "OpenReview" => fetchOpenReviewMetadata url w
  | "IEEE" => fetchIEEEMetadata url w
  | "ACM" => fetchACMMetadata url w
  | s => fetchGenericMetadata url s w po

/-- The public entry point: dispatch wrapped in the catch-all failure
boundary returning the all-empty record with the classified label. -/
def fetchPaperMetadata (url : String) (w : Oracle) (po : PdfOracle) :
    PaperMetadata × List Eff :=
  match resolveDispatch url w po with
  | (.ok m, t) => (m, t)
  | (.error _, t) => (emptyMeta url (detectSource url), t)

/-! ## The classifier priority table as specified -/

/-- The spec's classifier priority table restricted to the entries the code
implements: ordered domain-substring groups with their labels; the first
group with a matching substring wins and the default is `"Web"`. -/
def classifierRules : List (List String × String) :=
  [(["arxiv.org"], "arXiv"), (["doi.org"], "DOI"), (["ieee.org"], "IEEE"),
   (["acm.org"], "ACM"), (["springer.com"], "Springer"),
   (["nature.com"], "Nature"), (["sciencedirect.com"], "ScienceDirect"),
   (["ncbi.nlm.nih.gov", "pubmed"], "PubMed"),
   (["semanticscholar.org"], "Semantic Scholar"),
   (["openreview.net"], "OpenReview"), (["github.com"], "GitHub")]

def classifyFirst (url : String) : List (List String × String) → String
  | [] => "Web"
  | (pats, lab) :: rest =>
    if pats.any (fun p => includes url p) then lab else classifyFirst url rest

/-- First-match-wins classification over the priority table. -/
def classifySpec (url : String) : String := classifyFirst url classifierRules

end PaperBookmark

namespace PaperBookmark

deriving instance DecidableEq for Except

set_option maxRecDepth 16384

/-! ## Supporting lemmas -/

theorem spanP_all_true (p : Char → Bool) (l : List Char) (h : l.all p = true) :
    spanP p l = (l, []) := by
  induction l with
  | nil => rfl
  | cons c cs ih =>
    simp only [List.all_cons, Bool.and_eq_true] at h
    simp [spanP, h.1, ih h.2]

theorem digit_not_ws (c : Char) (h : isDigitC c = true) : isJsWs c = false := by
  unfold isDigitC at h
  unfold isJsWs
  simp only [Bool.and_eq_true, decide_eq_true_eq] at h
  simp only [Bool.or_eq_false_iff, decide_eq_false_iff_not]
  refine ⟨⟨⟨⟨⟨?_, ?_⟩, ?_⟩, ?_⟩, ?_⟩, ?_⟩ <;>
    · rintro rfl
      revert h
      decide

theorem digit_ne_minus (c : Char) (h : isDigitC c = true) : c ≠ '-' := by
  rintro rfl; revert h; decide

theorem digit_ne_plus (c : Char) (h : isDigitC c = true) : c ≠ '+' := by
  rintro rfl; revert h; decide

/-- A header value that is a plain decimal numeral parses under
`parseInt(·, 10)` to its value, and is truthy (non-empty). -/
theorem jsParseInt_decNat (cl : String) (n : Nat) (h : decNat cl = some n) :
    cl ≠ "" ∧ jsParseInt cl = some (n : Int) := by
  unfold decNat at h
  split at h
  case isFalse => exact absurd h (by simp)
  case isTrue hprop =>
    obtain ⟨hne, hall⟩ := hprop
    simp only [Option.some_inj] at h
    subst h
    constructor
    · intro hcl
      subst hcl
      exact hne rfl
    · unfold jsParseInt
      obtain ⟨c, rest, hcr⟩ : ∃ c rest, cl.data = c :: rest := by
        cases hd : cl.data with
        | nil => exact absurd hd hne
        | cons a b => exact ⟨a, b, rfl⟩
      have hdig : (c :: rest).all isDigitC = true := hcr ▸ hall
      have hc : isDigitC c = true := by
        simp only [List.all_cons, Bool.and_eq_true] at hdig
        exact hdig.1
      rw [hcr, List.dropWhile_cons, digit_not_ws c hc]
      simp only [Bool.false_eq_true, if_false]
      have hld : leadDigits (c :: rest) = some (digitsToNat (c :: rest)) := by
        unfold leadDigits
        rw [spanP_all_true isDigitC (c :: rest) hdig]
        simp
      split
      next heq => exact absurd (List.cons.inj heq).1 (digit_ne_minus c hc)
      next heq => exact absurd (List.cons.inj heq).1 (digit_ne_plus c hc)
      next => simp [hld]

/-! ## C2: the classifier priority mapping -/

/-- C2 counterexample: the code's `detectSource` has no `huggingface.co`
branch; a huggingface URL is classified `"Web"`, not `"HuggingFace"` as the
claim states. -/
theorem detectSource_huggingface_counterexample :
    detectSource "https://huggingface.co/papers/2401.00001" = "Web" ∧
    detectSource "https://huggingface.co/papers/2401.00001" ≠ "HuggingFace" := by
  constructor <;> decide

/-- C2 (amended): `detectSource` implements exactly the first-match-wins
priority table arxiv.org → doi.org → ieee.org → acm.org → springer.com →
nature.com → sciencedirect.com → (ncbi.nlm.nih.gov or "pubmed") →
semanticscholar.org → openreview.net → github.com → else "Web", with no
huggingface.co entry: a URL containing huggingface.co and none of the
listed substrings is classified "Web", and the empty string is classified
"Web". -/
theorem detectSource_priority_table :
    (∀ url, detectSource url = classifySpec url) ∧
    detectSource "" = "Web" ∧
    (∀ url, includes url "huggingface.co" = true →
      includes url "arxiv.org" = false → includes url "doi.org" = false →
      includes url "ieee.org" = false → includes url "acm.org" = false →
      includes url "springer.com" = false → includes url "nature.com" = false →
      includes url "sciencedirect.com" = false →
      includes url "ncbi.nlm.nih.gov" = false → includes url "pubmed" = false →
      includes url "semanticscholar.org" = false →
      includes url "openreview.net" = false → includes url "github.com" = false →
      detectSource url = "Web") := by
  refine ⟨fun url => ?_, by decide, fun url _ h1 h2 h3 h4 h5 h6 h7 h8 h9 h10 h11 h12 => ?_⟩
  · simp only [detectSource, classifySpec, classifierRules, classifyFirst,
      List.any_cons, List.any_nil, Bool.or_false]
  · simp only [detectSource, h1, h2, h3, h4, h5, h6, h7, h8, h9, h10, h11, h12,
      Bool.or_false, Bool.false_eq_true, if_false]

theorem detectSource_priority_table_witness :
    detectSource "https://huggingface.co/models" = "Web" ∧
    detectSource "https://www.nature.com/articles/x1" =
      classifySpec "https://www.nature.com/articles/x1" :=
  ⟨detectSource_priority_table.2.2 "https://huggingface.co/models"
      rfl rfl rfl rfl rfl rfl rfl rfl rfl rfl rfl rfl rfl,
    detectSource_priority_table.1 "https://www.nature.com/articles/x1"⟩

/-! ## C6: the PDF parser handle is released on every exit path -/

/-- C6: whenever the PDF parser is successfully constructed, `destroy()` is
executed on every exit path of `parsePdfBuffer` — normal return, and
exceptions thrown by `getInfo` or `getText` (which yield the all-empty
result); the trace always contains the release effect. -/
theorem parsePdfBuffer_always_destroys (buffer url source : String)
    (po : PdfOracle) (h : po.ctor buffer = .ok ()) :
    Eff.pdfDestroy ∈ (parsePdfBuffer buffer url source po).2 := by
  unfold parsePdfBuffer
  rw [h]
  cases hi : po.getInfo buffer with
  | error e => simp
  | ok info =>
    cases ht : po.getTextFirst3 buffer with
    | error e => simp
    | ok pages => simp

theorem parsePdfBuffer_always_destroys_witness :
    Eff.pdfDestroy ∈ (parsePdfBuffer "BUF" "http://x/a.pdf" "Web"
      ⟨fun _ => .ok (), fun _ => .error "bad xref", fun _ => .ok []⟩).2 :=
  parsePdfBuffer_always_destroys "BUF" "http://x/a.pdf" "Web" _ rfl

/-! ## C9: no network call when the provider ID pattern fails -/

/-- C9: for the arXiv, DOI, PubMed, Semantic Scholar and OpenReview
resolvers, a URL on which the provider-specific ID pattern fails to match
yields the all-empty result with the resolver's own label and an empty
effect trace — the outbound fetch capability is never invoked. -/
theorem resolvers_skip_network_without_id (url : String) (w : Oracle) :
    (extractArxivId url = none →
      fetchArxivMetadata url w = (.ok (emptyMeta url "arXiv"), [])) ∧
    (extractDoi url = none →
      fetchDoiMetadata url w = (.ok (emptyMeta url "DOI"), [])) ∧
    (extractPmid url = none →
      fetchPubMedMetadata url w = (.ok (emptyMeta url "PubMed"), [])) ∧
    (extractSemSchId url = none →
      fetchSemanticScholarMetadata url w =
        (.ok (emptyMeta url "Semantic Scholar"), [])) ∧
    (extractOpenReviewId url = none →
      fetchOpenReviewMetadata url w = (.ok (emptyMeta url "OpenReview"), [])) := by
  refine ⟨fun h => ?_, fun h => ?_, fun h => ?_, fun h => ?_, fun h => ?_⟩
  · simp [fetchArxivMetadata, h]
  · simp [fetchDoiMetadata, h]
  · simp [fetchPubMedMetadata, h]
  · simp [fetchSemanticScholarMetadata, h]
  · simp [fetchOpenReviewMetadata, h]

theorem resolvers_skip_network_without_id_witness :
    fetchArxivMetadata "https://arxiv.org/help" (fun _ => .error "net") =
      (.ok (emptyMeta "https://arxiv.org/help" "arXiv"), []) ∧
    fetchDoiMetadata "https://doi.org/badid" (fun _ => .error "net") =
      (.ok (emptyMeta "https://doi.org/badid" "DOI"), []) ∧
    fetchPubMedMetadata "https://www.ncbi.nlm.nih.gov/" (fun _ => .error "net") =
      (.ok (emptyMeta "https://www.ncbi.nlm.nih.gov/" "PubMed"), []) ∧
    fetchSemanticScholarMetadata "https://www.semanticscholar.org/search"
        (fun _ => .error "net") =
      (.ok (emptyMeta "https://www.semanticscholar.org/search" "Semantic Scholar"),
        []) ∧
    fetchOpenReviewMetadata "https://openreview.net/about" (fun _ => .error "net") =
      (.ok (emptyMeta "https://openreview.net/about" "OpenReview"), []) :=
  ⟨(resolvers_skip_network_without_id _ _).1 rfl,
   (resolvers_skip_network_without_id _ _).2.1 rfl,
   (resolvers_skip_network_without_id _ _).2.2.1 rfl,
   (resolvers_skip_network_without_id _ _).2.2.2.1 rfl,
   (resolvers_skip_network_without_id _ _).2.2.2.2 rfl⟩

/-! ## C10: without a content-length header the cap is not enforced -/

/-- C10: when the response carries no content-length header, `fetchPdfMetadata`
performs no size check: it reads the entire body and hands it to the PDF
parser, whatever its actual size. -/
theorem fetchPdfMetadata_no_header_no_cap (url source : String) (w : Oracle)
    (po : PdfOracle) (resp : HttpResponse) (hw : w url = .ok resp)
    (hok : resp.ok = true) (hcl : resp.contentLength = none) :
    fetchPdfMetadata url source w po =
      ((parsePdfBuffer resp.bodyText url source po).1,
        [Eff.fetch url, Eff.readBody url] ++
          (parsePdfBuffer resp.bodyText url source po).2) := by
  unfold fetchPdfMetadata
  rw [hw]
  rcases hp : parsePdfBuffer resp.bodyText url source po with ⟨m, t⟩
  simp [hok, hcl, hp]

theorem fetchPdfMetadata_no_header_no_cap_witness :
    fetchPdfMetadata "http://x/huge.pdf" "Web"
        (fun _ => .ok ⟨true, none, none, "HUGEPDFBYTES", .error "nj"⟩)
        ⟨fun _ => .ok (), fun _ => .ok ⟨some "T", some "A"⟩, fun _ => .ok []⟩ =
      ((parsePdfBuffer "HUGEPDFBYTES" "http://x/huge.pdf" "Web"
          ⟨fun _ => .ok (), fun _ => .ok ⟨some "T", some "A"⟩, fun _ => .ok []⟩).1,
        [Eff.fetch "http://x/huge.pdf", Eff.readBody "http://x/huge.pdf"] ++
          (parsePdfBuffer "HUGEPDFBYTES" "http://x/huge.pdf" "Web"
            ⟨fun _ => .ok (), fun _ => .ok ⟨some "T", some "A"⟩, fun _ => .ok []⟩).2) :=
  fetchPdfMetadata_no_header_no_cap "http://x/huge.pdf" "Web" _ _ _ rfl rfl rfl

/-! ## C1: the orchestrator is total and absorbs resolver failures -/

/-- C1: `fetchPaperMetadata` always returns a well-formed record; when the
dispatched provider resolver throws for any reason, the exception is caught
and the result is `{url, title: "", authors: "", abstract: "", source}` with
the label already chosen by `detectSource` — nothing propagates to the
caller. -/
theorem fetchPaperMetadata_total_on_error (url : String) (w : Oracle)
    (po : PdfOracle) (e : String)
    (h : (resolveDispatch url w po).1 = .error e) :
    (fetchPaperMetadata url w po).1 =
      { url := url, title := "", authors := "", abstract := "",
        source := detectSource url } := by
  unfold fetchPaperMetadata
  rcases hr : resolveDispatch url w po with ⟨r, t⟩
  rw [hr] at h
  simp only at h
  subst h
  rfl

theorem fetchPaperMetadata_total_on_error_witness :
    (resolveDispatch "https://arxiv.org/abs/1234.5678"
        (fun _ => .error "network down")
        ⟨fun _ => .ok (), fun _ => .ok ⟨none, none⟩, fun _ => .ok []⟩).1 =
      .error "network down" ∧
    (fetchPaperMetadata "https://arxiv.org/abs/1234.5678"
        (fun _ => .error "network down")
        ⟨fun _ => .ok (), fun _ => .ok ⟨none, none⟩, fun _ => .ok []⟩).1 =
      { url := "https://arxiv.org/abs/1234.5678", title := "", authors := "",
        abstract := "", source := "arXiv" } :=
  ⟨rfl, fetchPaperMetadata_total_on_error _ _ _ "network down" rfl⟩

/-! ## C7: the 50 MiB cap rejects oversized declared content-lengths -/

/-- C7: if the response for a PDF URL declares a content-length strictly
greater than 50 MiB (52428800 bytes), `fetchPdfMetadata` returns the
all-empty result with the given source label and the body is never read
(the trace contains only the fetch), for every URL and source label. -/
theorem fetchPdfMetadata_size_cap (url source cl : String) (n : Nat)
    (w : Oracle) (po : PdfOracle) (resp : HttpResponse)
    (hw : w url = .ok resp) (hcl : resp.contentLength = some cl)
    (hn : decNat cl = some n) (hbig : MAX_PDF_SIZE < n) :
    fetchPdfMetadata url source w po = (emptyMeta url source, [Eff.fetch url]) := by
  obtain ⟨hne, hparse⟩ := jsParseInt_decNat cl n hn
  unfold fetchPdfMetadata
  rw [hw]
  by_cases hok : resp.ok
  · simp [hok, hcl, hparse, hne, hbig]
  · simp [hok]

theorem fetchPdfMetadata_size_cap_witness :
    decNat "99999999" = some 99999999 ∧
    MAX_PDF_SIZE < 99999999 ∧
    fetchPdfMetadata "http://x/big.pdf" "Web"
        (fun _ => .ok ⟨true, some "99999999", none, "BODY", .error "nj"⟩)
        ⟨fun _ => .ok (), fun _ => .ok ⟨none, none⟩, fun _ => .ok []⟩ =
      (emptyMeta "http://x/big.pdf" "Web", [Eff.fetch "http://x/big.pdf"]) :=
  ⟨by decide, by decide,
    fetchPdfMetadata_size_cap "http://x/big.pdf" "Web" "99999999" 99999999
      _ _ _ rfl rfl (by decide) (by decide)⟩

/-! ## C3: the arXiv resolution scenario -/

/-- The mocked arXiv API response body of the claim: exactly the four
elements the spec lists. -/
def arxivClaimBody : String :=
  "<title>Example Paper Title</title>\n<name>Jane Doe</name>\n<name>John Roe</name>\n<summary>This is the abstract.</summary>"

def arxivClaimWorld : Oracle := fun _ =>
  .ok ⟨true, none, none, arxivClaimBody, .error "not JSON"⟩

/-- C3 counterexample: on the claim's response body the arXiv resolver
returns an empty title, not "Example Paper Title": `titleMatch[1]` is the
*second* full match of the global `<title>` regex and this body has only one
`<title>` element.  Authors and abstract resolve exactly as claimed. -/
theorem arxiv_first_title_counterexample :
    (fetchArxivMetadata "https://arxiv.org/abs/2301.00001" arxivClaimWorld).1 =
      .ok ⟨"https://arxiv.org/abs/2301.00001", "", "Jane Doe, John Roe",
        "This is the abstract.", "arXiv"⟩ ∧
    (fetchArxivMetadata "https://arxiv.org/abs/2301.00001" arxivClaimWorld).1 ≠
      .ok ⟨"https://arxiv.org/abs/2301.00001", "Example Paper Title",
        "Jane Doe, John Roe", "This is the abstract.", "arXiv"⟩ := by
  constructor <;> decide

/-- An arXiv Atom response in which the feed-level `<title>` precedes the
entry `<title>`, as real arXiv export API responses do. -/
def arxivFeedBody : String :=
  "<feed><title>ArXiv Query: id_list=2301.00001</title>\n<entry><title>Example Paper Title</title>\n<name>Jane Doe</name>\n<name>John Roe</name>\n<summary>This is the abstract.</summary></entry></feed>"

def arxivFeedWorld : Oracle := fun _ =>
  .ok ⟨true, none, none, arxivFeedBody, .error "not JSON"⟩

/-- C3 (amended): the arXiv resolver takes the *second* `<title>` full match
of the response (the first is the feed-level query title in real arXiv Atom
responses), joins all `<name>` elements with ", " in order, and takes the
`<summary>` block, collapsing internal whitespace and trimming; on a
response whose feed title precedes the entry title it returns exactly the
claimed record. -/
theorem arxiv_second_title_amended :
    (fetchArxivMetadata "https://arxiv.org/abs/2301.00001" arxivFeedWorld).1 =
      .ok ⟨"https://arxiv.org/abs/2301.00001", "Example Paper Title",
        "Jane Doe, John Roe", "This is the abstract.", "arXiv"⟩ := by
  decide

/-! ## C4: OpenReview dual response shapes normalize identically -/

/-- A legacy flat-shape OpenReview note content: bare strings and a bare
string array. -/
def legacyNoteContent (t : String) (as : List String) (ab : String) : JsVal :=
  .obj [("title", .str t), ("authors", .arr (as.map .str)), ("abstract", .str ab)]

/-- The new wrapped shape: the same underlying values nested under a
`value` key. -/
def wrappedNoteContent (t : String) (as : List String) (ab : String) : JsVal :=
  .obj [("title", .obj [("value", .str t)]),
        ("authors", .obj [("value", .arr (as.map .str))]),
        ("abstract", .obj [("value", .str ab)])]

/-- A notes-API response holding one note with the given content. -/
def notesResponse (c : JsVal) : HttpResponse :=
  ⟨true, none, none, "", .ok (.obj [("notes", .arr [.obj [("content", c)]])])⟩

/-- C4: for every underlying content (title, author list, abstract) and
every URL, `fetchOpenReviewMetadata` returns identical `PaperMetadata`
records for the legacy flat response shape and the new `value`-wrapped
response shape. -/
theorem openreview_shapes_equal (url t : String) (as : List String) (ab : String) :
    fetchOpenReviewMetadata url
        (fun _ => .ok (notesResponse (legacyNoteContent t as ab))) =
    fetchOpenReviewMetadata url
        (fun _ => .ok (notesResponse (wrappedNoteContent t as ab))) := by
  have hT : orScalarField (legacyNoteContent t as ab) "title" =
      orScalarField (wrappedNoteContent t as ab) "title" := by
    by_cases ht : t = ""
    · subst ht; rfl
    · rw [show orScalarField (legacyNoteContent t as ab) "title" = t from rfl]
      simp [orScalarField, wrappedNoteContent, getField, optTruthy, jsTruthy,
        isObjType, isStrType, asStr, ht]
  have hAb : orScalarField (legacyNoteContent t as ab) "abstract" =
      orScalarField (wrappedNoteContent t as ab) "abstract" := by
    by_cases hab : ab = ""
    · subst hab; rfl
    · rw [show orScalarField (legacyNoteContent t as ab) "abstract" = ab from rfl]
      simp [orScalarField, wrappedNoteContent, getField, optTruthy, jsTruthy,
        isObjType, isStrType, asStr, hab]
  have hAu : orAuthorsField (legacyNoteContent t as ab) =
      orAuthorsField (wrappedNoteContent t as ab) := rfl
  unfold fetchOpenReviewMetadata
  cases hid : extractOpenReviewId url with
  | none => rfl
  | some fid =>
    show (Except.ok (⟨url, orScalarField (legacyNoteContent t as ab) "title",
          orAuthorsField (legacyNoteContent t as ab),
          orScalarField (legacyNoteContent t as ab) "abstract", "OpenReview"⟩ :
            PaperMetadata),
        ([.fetch ("https://api.openreview.net/notes?id=" ++ fid),
          .readBody ("https://api.openreview.net/notes?id=" ++ fid)] : List Eff)) =
      (Except.ok (⟨url, orScalarField (wrappedNoteContent t as ab) "title",
          orAuthorsField (wrappedNoteContent t as ab),
          orScalarField (wrappedNoteContent t as ab) "abstract", "OpenReview"⟩ :
            PaperMetadata),
        [.fetch ("https://api.openreview.net/notes?id=" ++ fid),
          .readBody ("https://api.openreview.net/notes?id=" ++ fid)])
    rw [hT, hAb, hAu]

/-! ## C5: IEEE/ACM delegate to the DOI resolver and relabel the source -/

/-- C5: when an ACM URL embeds a DOI in its path, the ACM resolver's outcome
is exactly the DOI resolver's outcome on `https://doi.org/DOI` with only the
source label replaced by "ACM" (same trace, including error propagation);
when an IEEE document page's HTML embeds a `"doi":"10..."` fragment and the
DOI resolver succeeds on that DOI, the IEEE resolver returns the same record
with only the source label replaced by "IEEE".  The returned label is never
"DOI". -/
theorem ieee_acm_delegate_to_doi :
    (∀ url doi (w : Oracle), extractAcmDoi url = some doi →
      fetchACMMetadata url w =
        (((fetchDoiMetadata ("https://doi.org/" ++ doi) w).1).map
            (fun m => { m with source := "ACM" }),
          (fetchDoiMetadata ("https://doi.org/" ++ doi) w).2)) ∧
    (∀ url docId doi (w : Oracle) (resp : HttpResponse) (m : PaperMetadata),
      extractIeeeDocId url = some docId → w url = .ok resp →
      extractPageDoi resp.bodyText = some doi →
      (fetchDoiMetadata ("https://doi.org/" ++ doi) w).1 = .ok m →
      (fetchIEEEMetadata url w).1 = .ok { m with source := "IEEE" }) := by
  constructor
  · intro url doi w h
    unfold fetchACMMetadata
    rw [h]
  · intro url docId doi w resp m h1 h2 h3 h4
    unfold fetchIEEEMetadata
    rw [h1, h2]
    simp only []
    rw [h3]
    simp only []
    rw [h4]

/-- A fetch oracle for the delegation witness: the CrossRef works endpoint
answers with a work record, every other URL serves an IEEE landing page
with an embedded DOI fragment. -/
def delegationWorld : Oracle := fun u =>
  if u = "https://api.crossref.org/works/10.1145%2F3292500.3330701" then
    .ok ⟨true, none, none, "",
      .ok (.obj [("message", .obj [("title", .arr [.str "Delegated Title"])])])⟩
  else
    .ok ⟨true, none, none,
      "<html>\"doi\":\"10.1145/3292500.3330701\"</html>", .error "nj"⟩

theorem ieee_acm_delegate_to_doi_witness :
    fetchACMMetadata "https://dl.acm.org/doi/10.1145/3292500.3330701"
        delegationWorld =
      (((fetchDoiMetadata ("https://doi.org/" ++ "10.1145/3292500.3330701")
            delegationWorld).1).map (fun m => { m with source := "ACM" }),
        (fetchDoiMetadata ("https://doi.org/" ++ "10.1145/3292500.3330701")
          delegationWorld).2) ∧
    (fetchIEEEMetadata "https://ieeexplore.ieee.org/document/123456"
        delegationWorld).1 =
      .ok { url := "https://doi.org/10.1145/3292500.3330701",
            title := "Delegated Title", authors := "", abstract := "",
            source := "IEEE" } :=
  ⟨ieee_acm_delegate_to_doi.1 "https://dl.acm.org/doi/10.1145/3292500.3330701"
      "10.1145/3292500.3330701" delegationWorld rfl,
    ieee_acm_delegate_to_doi.2 "https://ieeexplore.ieee.org/document/123456"
      "123456" "10.1145/3292500.3330701" delegationWorld _
      ⟨"https://doi.org/10.1145/3292500.3330701", "Delegated Title", "", "", "DOI"⟩
      rfl rfl rfl rfl⟩

/-! ## C8: the generic resolver's per-field fallback chains -/

/-- C8: for every non-PDF URL the generic resolver extracts each field with
the fixed fallback order.  The first conjunct identifies the resolver's
output with the three named chains; the following conjuncts establish every
tier of each chain: title via `citation_title`, else `og:title`, else the
trimmed `<title>` text; authors via all `citation_author` metas joined with
", ", else the single `author` meta, else empty; abstract via
`citation_abstract`, else `description`, else `og:description`, else empty.
The last conjunct is the claim's scenario: no citation/OpenGraph tags but a
populated `<title>` element yields the trimmed, entity-decoded `<title>`
text with empty authors and abstract. -/
theorem fetchGenericMetadata_fallbacks :
    (∀ url source (w : Oracle) (po : PdfOracle) (resp : HttpResponse),
      ".pdf".data.isSuffixOf (url.data.map lowerC) = false →
      includes url "/pdf/" = false →
      w url = .ok resp →
      includes (resp.contentType.getD "") "application/pdf" = false →
      fetchGenericMetadata url source w po =
        (.ok ⟨url, decodeHtmlEntities (genTitle resp.bodyText),
            decodeHtmlEntities (genAuthors resp.bodyText),
            decodeHtmlEntities (genAbstract resp.bodyText), source⟩,
          [Eff.fetch url, Eff.readBody url])) ∧
    (∀ html ct, findMeta [("name", "citation_title")] html = some ct →
      ct ≠ "" → genTitle html = ct) ∧
    (∀ html ot, findMeta [("name", "citation_title")] html = none →
      findMeta [("property", "og:title")] html = some ot →
      ot ≠ "" → genTitle html = ot) ∧
    (∀ html t, findMeta [("name", "citation_title")] html = none →
      findMeta [("property", "og:title")] html = none →
      findTitleTag html = some t → genTitle html = String.mk (jsTrim t.data)) ∧
    (∀ html (caps : List String),
      findMetaAll [("name", "citation_author")] html = caps → caps ≠ [] →
      genAuthors html =
        String.mk (joinNonEmpty ", ".data (caps.map String.data))) ∧
    (∀ html am, findMetaAll [("name", "citation_author")] html = [] →
      findMeta [("name", "author")] html = some am → genAuthors html = am) ∧
    (∀ html, findMetaAll [("name", "citation_author")] html = [] →
      findMeta [("name", "author")] html = none → genAuthors html = "") ∧
    (∀ html ca, findMeta [("name", "citation_abstract")] html = some ca →
      ca ≠ "" → genAbstract html = ca) ∧
    (∀ html d, findMeta [("name", "citation_abstract")] html = none →
      findMeta [("name", "description")] html = some d →
      d ≠ "" → genAbstract html = d) ∧
    (∀ html od, findMeta [("name", "citation_abstract")] html = none →
      findMeta [("name", "description")] html = none →
      findMeta [("property", "og:description")] html = some od →
      genAbstract html = od) ∧
    (∀ html, findMeta [("name", "citation_abstract")] html = none →
      findMeta [("name", "description")] html = none →
      findMeta [("property", "og:description")] html = none →
      genAbstract html = "") ∧
    (∀ url source t (w : Oracle) (po : PdfOracle) (resp : HttpResponse),
      ".pdf".data.isSuffixOf (url.data.map lowerC) = false →
      includes url "/pdf/" = false →
      w url = .ok resp →
      includes (resp.contentType.getD "") "application/pdf" = false →
      findMeta [("name", "citation_title")] resp.bodyText = none →
      findMeta [("property", "og:title")] resp.bodyText = none →
      findTitleTag resp.bodyText = some t →
      findMetaAll [("name", "citation_author")] resp.bodyText = [] →
      findMeta [("name", "author")] resp.bodyText = none →
      findMeta [("name", "citation_abstract")] resp.bodyText = none →
      findMeta [("name", "description")] resp.bodyText = none →
      findMeta [("property", "og:description")] resp.bodyText = none →
      fetchGenericMetadata url source w po =
        (.ok ⟨url, decodeHtmlEntities (String.mk (jsTrim t.data)), "", "", source⟩,
          [Eff.fetch url, Eff.readBody url])) := by
  have hmaster : ∀ url source (w : Oracle) (po : PdfOracle) (resp : HttpResponse),
      ".pdf".data.isSuffixOf (url.data.map lowerC) = false →
      includes url "/pdf/" = false →
      w url = .ok resp →
      includes (resp.contentType.getD "") "application/pdf" = false →
      fetchGenericMetadata url source w po =
        (.ok ⟨url, decodeHtmlEntities (genTitle resp.bodyText),
            decodeHtmlEntities (genAuthors resp.bodyText),
            decodeHtmlEntities (genAbstract resp.bodyText), source⟩,
          [Eff.fetch url, Eff.readBody url]) := by
    intro url source w po resp hnp1 hnp2 hw hct
    unfold fetchGenericMetadata
    rw [hnp1, hnp2]
    simp only [Bool.or_false, Bool.false_eq_true, if_false]
    rw [hw]
    simp only [hct, Bool.false_eq_true, if_false]
  have ht1 : ∀ html ct, findMeta [("name", "citation_title")] html = some ct →
      ct ≠ "" → genTitle html = ct := by
    intro html ct h hne
    simp [genTitle, h, hne]
  have ht2 : ∀ html ot, findMeta [("name", "citation_title")] html = none →
      findMeta [("property", "og:title")] html = some ot →
      ot ≠ "" → genTitle html = ot := by
    intro html ot h1 h2 hne
    simp [genTitle, h1, h2, hne]
  have ht3 : ∀ html t, findMeta [("name", "citation_title")] html = none →
      findMeta [("property", "og:title")] html = none →
      findTitleTag html = some t →
      genTitle html = String.mk (jsTrim t.data) := by
    intro html t h1 h2 h3
    simp [genTitle, h1, h2, h3]
  have ha1 : ∀ html (caps : List String),
      findMetaAll [("name", "citation_author")] html = caps → caps ≠ [] →
      genAuthors html =
        String.mk (joinNonEmpty ", ".data (caps.map String.data)) := by
    intro html caps h hne
    cases caps with
    | nil => exact absurd rfl hne
    | cons a l => simp [genAuthors, h]
  have ha2 : ∀ html am, findMetaAll [("name", "citation_author")] html = [] →
      findMeta [("name", "author")] html = some am → genAuthors html = am := by
    intro html am h1 h2
    simp [genAuthors, h1, h2]
  have ha3 : ∀ html, findMetaAll [("name", "citation_author")] html = [] →
      findMeta [("name", "author")] html = none → genAuthors html = "" := by
    intro html h1 h2
    simp [genAuthors, h1, h2]
  have hb1 : ∀ html ca, findMeta [("name", "citation_abstract")] html = some ca →
      ca ≠ "" → genAbstract html = ca := by
    intro html ca h hne
    simp [genAbstract, h, hne]
  have hb2 : ∀ html d, findMeta [("name", "citation_abstract")] html = none →
      findMeta [("name", "description")] html = some d →
      d ≠ "" → genAbstract html = d := by
    intro html d h1 h2 hne
    simp [genAbstract, h1, h2, hne]
  have hb3 : ∀ html od, findMeta [("name", "citation_abstract")] html = none →
      findMeta [("name", "description")] html = none →
      findMeta [("property", "og:description")] html = some od →
      genAbstract html = od := by
    intro html od h1 h2 h3
    simp [genAbstract, h1, h2, h3]
  have hb4 : ∀ html, findMeta [("name", "citation_abstract")] html = none →
      findMeta [("name", "description")] html = none →
      findMeta [("property", "og:description")] html = none →
      genAbstract html = "" := by
    intro html h1 h2 h3
    simp [genAbstract, h1, h2, h3]
  refine ⟨hmaster, ht1, ht2, ht3, ha1, ha2, ha3, hb1, hb2, hb3, hb4, ?_⟩
  intro url source t w po resp hnp1 hnp2 hw hct h1 h2 h3 h4 h5 h6 h7 h8
  rw [hmaster url source w po resp hnp1 hnp2 hw hct,
    ht3 resp.bodyText t h1 h2 h3, ha3 resp.bodyText h4 h5,
    hb4 resp.bodyText h6 h7 h8]
  rfl

set_option maxHeartbeats 2000000 in
theorem fetchGenericMetadata_fallbacks_witness :
    fetchGenericMetadata "http://example.com/page" "Web"
        (fun _ => .ok ⟨true, none, some "text/html",
          "<html><head><title>  My &amp; Paper  </title></head></html>",
          .error "nj"⟩)
        ⟨fun _ => .ok (), fun _ => .ok ⟨none, none⟩, fun _ => .ok []⟩ =
      (.ok ⟨"http://example.com/page", "My & Paper", "", "", "Web"⟩,
        [Eff.fetch "http://example.com/page",
          Eff.readBody "http://example.com/page"]) ∧
    fetchGenericMetadata "http://site.example/a" "Web"
        (fun _ => .ok ⟨true, none, some "text/html",
          "<meta property=\"og:title\" content=\"OGT\"><meta name=\"author\" content=\"Solo Author\"><meta name=\"description\" content=\"Desc\">",
          .error "nj"⟩)
        ⟨fun _ => .ok (), fun _ => .ok ⟨none, none⟩, fun _ => .ok []⟩ =
      (.ok ⟨"http://site.example/a", "OGT", "Solo Author", "Desc", "Web"⟩,
        [Eff.fetch "http://site.example/a", Eff.readBody "http://site.example/a"]) ∧
    genTitle "<meta name=\"citation_title\" content=\"T1\">" = "T1" ∧
    genTitle "<meta property=\"og:title\" content=\"OGT\">" = "OGT" ∧
    genAuthors "<meta name=\"citation_author\" content=\"A1\"><meta name=\"citation_author\" content=\"A2\">" =
      "A1, A2" ∧
    genAuthors "<meta name=\"author\" content=\"Solo Author\">" = "Solo Author" ∧
    genAbstract "<meta name=\"citation_abstract\" content=\"Abs1\">" = "Abs1" ∧
    genAbstract "<meta name=\"description\" content=\"Desc\">" = "Desc" ∧
    genAbstract "<meta property=\"og:description\" content=\"OGD\">" = "OGD" :=
  ⟨fetchGenericMetadata_fallbacks.2.2.2.2.2.2.2.2.2.2.2 "http://example.com/page"
      "Web" "  My &amp; Paper  " _ _ _ rfl rfl rfl rfl rfl rfl rfl rfl rfl rfl
      rfl rfl,
    by decide,
    fetchGenericMetadata_fallbacks.2.1 _ "T1" rfl (by decide),
    fetchGenericMetadata_fallbacks.2.2.1 _ "OGT" rfl rfl (by decide),
    fetchGenericMetadata_fallbacks.2.2.2.2.1 _ ["A1", "A2"] rfl (by decide),
    fetchGenericMetadata_fallbacks.2.2.2.2.2.1 _ "Solo Author" rfl rfl,
    fetchGenericMetadata_fallbacks.2.2.2.2.2.2.2.1 _ "Abs1" rfl (by decide),
    fetchGenericMetadata_fallbacks.2.2.2.2.2.2.2.2.1 _ "Desc" rfl rfl (by decide),
    fetchGenericMetadata_fallbacks.2.2.2.2.2.2.2.2.2.1 _ "OGD" rfl rfl rfl⟩

end PaperBookmark
